import Mathlib

/-
  Verification development for the particle / homeostasis-agent simulation
  (collision.py).  The Python source is embedded shallowly: numpy float
  arrays become pairs of rationals (exact arithmetic), object mutation
  becomes functional record update, and the random draws consumed by the
  source are threaded as explicit parameters.
-/

/-- Particle state: position (rx, ry), velocity (vx, vy), radius, mass and
the deletion tombstone, mirroring the attributes set in Particle.__init__. -/
structure Particle where
  rx : ℚ
  ry : ℚ
  vx : ℚ
  vy : ℚ
  radius : ℚ
  mass : ℚ
  delete : Bool
deriving DecidableEq

/-- Particle.__init__: mass is derived as radius squared, delete starts false. -/
def mkParticle (x y vx vy radius : ℚ) : Particle :=
  { rx := x, ry := y, vx := vx, vy := vy, radius := radius,
    mass := radius ^ 2, delete := false }

instance : Inhabited Particle := ⟨mkParticle 0 0 0 0 0⟩

/-- Particle.advance: r += v*dt, then v -= 0.5*mass*dt (the scalar damping is
broadcast to both velocity components by numpy). -/
def Particle.advance (dt : ℚ) (p : Particle) : Particle :=
  { p with
    rx := p.rx + p.vx * dt,
    ry := p.ry + p.vy * dt,
    vx := p.vx - (1/2) * p.mass * dt,
    vy := p.vy - (1/2) * p.mass * dt }

/-- Squared distance between the centers of two particles.  In
change_velocities the source computes d = norm(r1 - r2)**2, which equals
this quantity exactly over the reals. -/
def sqDist (p q : Particle) : ℚ :=
  (p.rx - q.rx) ^ 2 + (p.ry - q.ry) ^ 2

/-- Particle.overlaps: hypot(r1 - r2) < radius1 + radius2.  Since the
Euclidean norm is nonnegative, the comparison is equivalent to requiring a
positive radius sum together with the squared comparison, which keeps the
definition inside ℚ (sqrt-free). -/
def overlapsB (p q : Particle) : Bool :=
  decide (0 < p.radius + q.radius ∧ sqDist p q < (p.radius + q.radius) ^ 2)

/-- Faithfulness of the sqrt-free overlap test: over ℝ it coincides with the
source's comparison sqrt(sqDist) < radius sum. -/
theorem overlapsB_iff_sqrt (p q : Particle) :
    overlapsB p q = true ↔
      Real.sqrt ((sqDist p q : ℚ)) < ((p.radius + q.radius : ℚ) : ℝ) := by
  rw [overlapsB, decide_eq_true_eq]
  constructor
  · rintro ⟨hpos, hlt⟩
    have hpos' : (0 : ℝ) < ((p.radius + q.radius : ℚ) : ℝ) := by exact_mod_cast hpos
    rw [show ((sqDist p q : ℚ) : ℝ) = ((sqDist p q : ℚ) : ℝ) from rfl]
    rw [Real.sqrt_lt' hpos']
    exact_mod_cast hlt
  · intro h
    have hge : (0 : ℝ) ≤ Real.sqrt ((sqDist p q : ℚ)) := Real.sqrt_nonneg _
    have hpos' : (0 : ℝ) < ((p.radius + q.radius : ℚ) : ℝ) := lt_of_le_of_lt hge h
    have hpos : (0 : ℚ) < p.radius + q.radius := by exact_mod_cast hpos'
    refine ⟨hpos, ?_⟩
    rw [Real.sqrt_lt' hpos'] at h
    exact_mod_cast h

/-- Simulation.change_velocities: the elastic-collision update.  d is the
squared center distance, the dot products and vector differences are written
exactly as in the source (u2 uses r2 - r1 and v2 - v1).  Both output
velocities are computed from the incoming velocities before either particle
is updated, as in the source, which assigns p1.v and p2.v only at the end. -/
def change_velocities (p1 p2 : Particle) : Particle × Particle :=
  let m1 := p1.mass
  let m2 := p2.mass
  let M := m1 + m2
  let d := (p1.rx - p2.rx) ^ 2 + (p1.ry - p2.ry) ^ 2
  let k1 := (p1.vx - p2.vx) * (p1.rx - p2.rx) + (p1.vy - p2.vy) * (p1.ry - p2.ry)
  let k2 := (p2.vx - p1.vx) * (p2.rx - p1.rx) + (p2.vy - p1.vy) * (p2.ry - p1.ry)
  let u1x := p1.vx - 2 * m2 / M * k1 / d * (p1.rx - p2.rx)
  let u1y := p1.vy - 2 * m2 / M * k1 / d * (p1.ry - p2.ry)
  let u2x := p2.vx - 2 * m1 / M * k2 / d * (p2.rx - p1.rx)
  let u2y := p2.vy - 2 * m1 / M * k2 / d * (p2.ry - p1.ry)
  ({ p1 with vx := u1x, vy := u1y }, { p2 with vx := u2x, vy := u2y })

/-- Total getter used in the collision pass; indices produced by the pair
enumeration are always in range when n equals the list length, matching the
source's self.particles[i]. -/
def pget (l : List Particle) (i : ℕ) : Particle :=
  l.getD i default

/-- The ascending unordered index pairs produced by
combinations(range(n), 2). -/
def allPairs (n : ℕ) : List (ℕ × ℕ) :=
  (List.range n).flatMap fun i =>
    ((List.range n).filter fun j => decide (i < j)).map fun j => (i, j)

/-- One step of the collision pass on one index pair: if the two particles
currently overlap, both velocities are replaced via change_velocities. -/
def collStep (l : List Particle) (ij : ℕ × ℕ) : List Particle :=
  if overlapsB (pget l ij.1) (pget l ij.2) then
    let q := change_velocities (pget l ij.1) (pget l ij.2)
    (l.set ij.1 q.1).set ij.2 q.2
  else l

/-- Simulation.handle_collisions: iterate over combinations(range(n), 2) in
order, resolving each currently-overlapping pair in place. -/
def handleCollisions (n : ℕ) (l : List Particle) : List Particle :=
  (allPairs n).foldl collStep l

/-- Simulation.handle_boundary_collisions: four sequential checks; the
second check on each axis reads the state left by the first, as in the
source. -/
def handle_boundary_collisions (p : Particle) : Particle :=
  let p1 := if p.rx - p.radius < 0 then { p with rx := p.radius, vx := -(95/100) * p.vx } else p
  let p2 := if p1.rx + p1.radius > 1 then { p1 with rx := 1 - p1.radius, vx := -(95/100) * p1.vx } else p1
  let p3 := if p2.ry - p2.radius < 0 then { p2 with ry := p2.radius, vy := -(95/100) * p2.vy } else p2
  if p3.ry + p3.radius > 1 then { p3 with ry := 1 - p3.radius, vy := -(95/100) * p3.vy } else p3

/-- The 100x100 sampled vector field (srf.field[0] and srf.field[1]); grid
arrays are embedded as total functions on indices. -/
structure VecField where
  fieldX : ℕ → ℕ → ℚ
  fieldY : ℕ → ℕ → ℚ

/-- Nearest grid index: argmin over abs(linspace(0,1,100) - x); np.argmin
returns the first index attaining the minimum, which the strict comparison
in the fold reproduces. -/
def nearestGridIdx (x : ℚ) : ℕ :=
  (List.range 100).foldl
    (fun (best k : ℕ) =>
      if |((k : ℕ) : ℚ) / 99 - x| < |((best : ℕ) : ℚ) / 99 - x| then k else best) 0

/-- Simulation.apply_forces: no-op when no field is supplied, otherwise
v += 2 * field_sample * dt with nearest-grid-point lookup. -/
def apply_forces (srf : Option VecField) (dt : ℚ) (p : Particle) : Particle :=
  match srf with
  | none => p
  | some f =>
    let xi := nearestGridIdx p.rx
    let yi := nearestGridIdx p.ry
    { p with
      vx := p.vx + 2 * f.fieldX xi yi * dt,
      vy := p.vy + 2 * f.fieldY xi yi * dt }

/-- Simulation state: the particle list, the count n, the tick duration and
the optional field. -/
structure Simulation where
  particles : List Particle
  n : ℕ
  dt : ℚ
  srf : Option VecField

/-- The per-particle work done in the non-deleted branch of
Simulation.advance: p.advance(dt), then handle_boundary_collisions(p), then
apply_forces(p). -/
def Simulation.stepParticle (s : Simulation) (p : Particle) : Particle :=
  apply_forces s.srf s.dt (handle_boundary_collisions (p.advance s.dt))

/-- CPython list-iterator semantics of the removal loop in
Simulation.advance: the iterator reads the element at the cursor and then
moves the cursor forward; list.remove(p) deletes the element just read (its
first occurrence, which is at the cursor position for the distinct objects
held here), shifting later elements down one slot while the cursor keeps its
value, so the next read lands two slots past the removed element.  Each
iteration raises the cursor by one and a removal shrinks the list, so the
initial length bounds the iteration count; it is used as structural fuel. -/
def advanceLoopAux (f : Particle → Particle) : ℕ → List Particle → ℕ → List Particle
  | 0, l, _ => l
  | fuel + 1, l, c =>
    if h : c < l.length then
      let p := l.get ⟨c, h⟩
      if p.delete then advanceLoopAux f fuel (l.eraseIdx c) (c + 1)
      else advanceLoopAux f fuel (l.set c (f p)) (c + 1)
    else l

/-- The removal/update loop of Simulation.advance over the whole list. -/
def advanceLoop (f : Particle → Particle) (l : List Particle) : List Particle :=
  advanceLoopAux f l.length l 0

/-- Simulation.advance: run the removal/update loop (n is decremented once
per removal, hence stays equal to the list length), then one full collision
pass over the resulting collection. -/
def Simulation.advance (s : Simulation) : Simulation :=
  let l' := advanceLoop s.stepParticle s.particles
  let n' := s.n - (s.particles.length - l'.length)
  { s with particles := handleCollisions n' l', n := n' }

/-- Agent state mirroring homeostasis_agent.__init__: the Particle fields
plus food_store, temperature, set_point, margin and the two logs. -/
structure homeostasis_agent where
  rx : ℚ
  ry : ℚ
  vx : ℚ
  vy : ℚ
  radius : ℚ
  mass : ℚ
  delete : Bool
  food_store : ℚ
  temperature : ℚ
  set_point : ℚ
  margin : ℚ
  temp_log : List ℚ
  food_log : List ℚ
deriving DecidableEq

/-- homeostasis_agent.monitor: deviation of temperature from the set point. -/
def homeostasis_agent.monitor (a : homeostasis_agent) : ℚ :=
  a.temperature - a.set_point

/-- homeostasis_agent.consume: food_store -= 1, temperature += 0.1. -/
def homeostasis_agent.consume (_dt : ℚ) (a : homeostasis_agent) : homeostasis_agent :=
  { a with food_store := a.food_store - 1, temperature := a.temperature + 1/10 }

/-- homeostasis_agent.move: the source scales a uniform(-1,1) draw by boost,
adds it to the velocity and then steps the position with the new velocity;
the draw is threaded explicitly as rnd. -/
def homeostasis_agent.move (rnd : ℚ × ℚ) (boost dt : ℚ)
    (a : homeostasis_agent) : homeostasis_agent :=
  let vx' := a.vx + rnd.1 * boost
  let vy' := a.vy + rnd.2 * boost
  { a with vx := vx', vy := vy', rx := a.rx + vx' * dt, ry := a.ry + vy' * dt }

/-- homeostasis_agent.exist: velocity decay by 0.95, a zero-boost move (the
random draw is multiplied by boost = 0, so the step is deterministic), log
appends, then the two death checks in source order. -/
def homeostasis_agent.exist (rnd : ℚ × ℚ) (dt : ℚ)
    (a : homeostasis_agent) : homeostasis_agent :=
  let a1 := { a with vx := (95/100) * a.vx, vy := (95/100) * a.vy }
  let a2 := a1.move rnd 0 dt
  let a3 := { a2 with temp_log := a2.temp_log ++ [a2.temperature],
                      food_log := a2.food_log ++ [a2.food_store] }
  let a4 := if a3.food_store < 0 then { a3 with delete := true } else a3
  if a4.temperature < 85 ∨ a4.temperature > 105 then { a4 with delete := true } else a4

/-- homeostasis_agent.advance: exist, then the three-way branch of the
policy on monitor() against margin; rnd1 feeds the zero-boost move inside
exist and rnd2 the boost = 0.5 move of the over-temperature branch. -/
def homeostasis_agent.advance (rnd1 rnd2 : ℚ × ℚ) (dt : ℚ)
    (a : homeostasis_agent) : homeostasis_agent :=
  let a1 := a.exist rnd1 dt
  let d_temp := a1.monitor
  if d_temp < a1.margin then a1.consume dt
  else if d_temp > a1.margin then a1.move rnd2 (1/2) dt
  else a1

/-- One random draw consumed by place_particle: the two uniform(0,1) values
of np.random.random(2) used for the position and the speed value vr
(0.05*sqrt(random())+0.05 in the source; only its membership in a range ever
matters, so the transformed value is taken directly).  The angle
vphi = 0*pi*random() is identically zero in the source, so vx = vr and
vy = 0. -/
structure Draw where
  ux : ℚ
  uy : ℚ
  vr : ℚ
deriving DecidableEq

/-- Admissible draw: np.random.random() lies in [0, 1). -/
def Draw.adm (d : Draw) : Prop :=
  0 ≤ d.ux ∧ d.ux ≤ 1 ∧ 0 ≤ d.uy ∧ d.uy ≤ 1

instance (d : Draw) : Decidable d.adm := by
  unfold Draw.adm; infer_instance

/-- The candidate particle built by place_particle from one draw:
x, y = rad + (1 - 2*rad)*random(2), velocity (vr*cos 0, vr*sin 0). -/
def candidate (rad : ℚ) (d : Draw) : Particle :=
  mkParticle (rad + (1 - 2 * rad) * d.ux) (rad + (1 - 2 * rad) * d.uy) d.vr 0 rad

/-- Simulation.place_particle: build the candidate, reject it (returning
False and leaving the collection untouched) when it overlaps any particle
already placed, otherwise append it and return True.  The Bool result and
the mutation are packaged as an Option of the new collection. -/
def place_particle (rad : ℚ) (d : Draw) (ps : List Particle) : Option (List Particle) :=
  let c := candidate rad d
  if ps.any fun p2 => overlapsB p2 c then none
  else some (ps ++ [c])

/-- The unbounded retry loop (while not self.place_particle: pass) for one
particle, consuming draws until a placement succeeds; exhausting the finite
draw supply models non-termination and yields none. -/
def placeLoop (rad : ℚ) (ps : List Particle) : List Draw → Option (List Particle × List Draw)
  | [] => none
  | d :: rest =>
    match place_particle rad d ps with
    | some ps' => some (ps', rest)
    | none => placeLoop rad ps rest

/-- The placement of all particles of init_particles, one radius after the
other, each with its own retry loop over the remaining draw supply. -/
def placeAll (ps : List Particle) : List ℚ → List Draw → Option (List Particle)
  | [], _ => some ps
  | rad :: rads, draws =>
    match placeLoop rad ps draws with
    | none => none
    | some (ps', rest) => placeAll ps' rads rest

/-- The construction-time failure of init_particles: the assert n ==
len(radius) raised for a per-particle radius sequence of the wrong length. -/
inductive ConfigErr where
  | lengthMismatch
deriving DecidableEq

/-- The radius argument of init_particles: a single value (the TypeError
branch turns it into n copies) or a sequence checked against n. -/
inductive RadiusArg where
  | scalar (q : ℚ)
  | seq (l : List ℚ)

/-- The radius normalisation at the top of init_particles: iter(radius)
succeeds on a sequence, whose length the assert compares with n before any
particle is placed; a scalar raises TypeError and is replicated n times. -/
def radiiOf (n : ℕ) (arg : RadiusArg) : Except ConfigErr (List ℚ) :=
  match arg with
  | .scalar q => .ok (List.replicate n q)
  | .seq l => if n = l.length then .ok l else .error .lengthMismatch

/-- Simulation.init_particles: normalise the radius argument, then place
every particle by rejection sampling; the inner Option is none when the
retry loop never succeeds within the supplied draws. -/
def initParticles (n : ℕ) (arg : RadiusArg) (draws : List Draw) :
    Except ConfigErr (Option (List Particle)) := do
  let radii ← radiiOf n arg
  pure (placeAll [] radii draws)


/-- The pair enumeration over one particle is empty. -/
lemma allPairs_one : allPairs 1 = [] := by decide

/-- The pair enumeration over two particles is the single pair (0, 1). -/
lemma allPairs_two : allPairs 2 = [(0, 1)] := by decide

/-- A tombstoned particle and a live particle used to exercise the removal
loop of Simulation.advance. -/
def pDead : Particle := { mkParticle (1/4) (1/4) 0 0 (1/100) with delete := true }

def pAlive : Particle := mkParticle (1/2) (1/2) 1 0 (1/100)

def sim0 : Simulation := { particles := [pDead, pAlive], n := 2, dt := 1/100, srf := none }

/-- Claim C1: during one Simulation.advance tick, removal of deleted
particles neither skips nor double-processes any particle, and deleted
particles are gone before the collision pass.  This fails on the code: with
the collection [pDead, pAlive], removing pDead mid-iteration shifts pAlive
under the iterator cursor, so pAlive survives the tick completely untouched
even though one application of the per-particle update (advance, boundary
handling, forces) would have changed it. -/
theorem claim_C1 :
    (Simulation.advance sim0).particles = [pAlive] ∧
      sim0.stepParticle pAlive ≠ pAlive := by
  constructor
  · norm_num [Simulation.advance, advanceLoop, advanceLoopAux, handleCollisions,
      collStep, sim0, pDead, pAlive, mkParticle, Simulation.stepParticle, allPairs_one]
  · norm_num [Simulation.stepParticle, sim0, pAlive, mkParticle, Particle.advance,
      handle_boundary_collisions, apply_forces]

/-- Two exactly coincident particles (equal centers, positive radii). -/
def pCo1 : Particle := mkParticle (1/2) (1/2) (1/10) 0 (1/100)

def pCo2 : Particle := mkParticle (1/2) (1/2) 0 0 (1/100)

/-- Claim C2: a pair with exactly coincident centers is supposed to be
treated as a skip condition with velocities left unchanged.  The code has no
such guard: the coincident pair satisfies the overlap test, so the
collision pass hands it to change_velocities instead of skipping it, and
the divisor d of that update is exactly 0 there — in the numpy source this
division by zero turns both velocities into NaN. -/
theorem claim_C2 :
    overlapsB pCo1 pCo2 = true ∧
      sqDist pCo1 pCo2 = 0 ∧
      collStep [pCo1, pCo2] (0, 1) =
        [(change_velocities pCo1 pCo2).1, (change_velocities pCo1 pCo2).2] := by
  refine ⟨?_, ?_, ?_⟩
  · norm_num [overlapsB, sqDist, pCo1, pCo2, mkParticle]
  · norm_num [sqDist, pCo1, pCo2, mkParticle]
  · norm_num [collStep, pget, overlapsB, sqDist, pCo1, pCo2, mkParticle]

/-- Claim C4: starting from a live agent, one exist call sets the deletion
flag exactly when the food store is negative or the temperature lies outside
the closed band [85, 105]; the vitals themselves are unchanged by exist, so
the conditions are evaluated on the incoming values. -/
theorem claim_C4 (a : homeostasis_agent) (rnd : ℚ × ℚ) (dt : ℚ) (h : a.delete = false) :
    (a.exist rnd dt).delete = true ↔
      (a.food_store < 0 ∨ a.temperature < 85 ∨ 105 < a.temperature) := by
  simp only [homeostasis_agent.exist, homeostasis_agent.move]
  split_ifs with h1 h2 <;> simp_all

/-- An agent with nominal vitals (temperature 98 at set point 98, margin 2,
food store 100), mirroring the homeostasis_agent defaults. -/
def aW : homeostasis_agent :=
  { rx := 1/2, ry := 1/2, vx := 11/10, vy := 11/10, radius := 1/20, mass := (1/20)^2,
    delete := false, food_store := 100, temperature := 98, set_point := 98, margin := 2,
    temp_log := [], food_log := [] }

/-- The same agent overheated to temperature 106. -/
def aHot : homeostasis_agent := { aW with temperature := 106 }

/-- Witness for claim C4: the live agent at temperature 106 (food store 100,
well above zero) is tombstoned by the very next exist call. -/
theorem claim_C4_witness :
    aHot.delete = false ∧ (aHot.exist (0, 0) (1/100)).delete = true :=
  ⟨rfl, (claim_C4 aHot (0, 0) (1/100) rfl).mpr
    (Or.inr (Or.inr (by norm_num [aHot, aW])))⟩

/-- Claim C6: in one agent tick, after exist the policy branches on
monitor() against margin: strictly below the margin it consumes (food store
down by exactly 1, temperature up by exactly 1/10, motion state untouched),
strictly above it moves (food store and temperature untouched), and at the
margin it does nothing further — never both consuming and moving. -/
theorem claim_C6 (a : homeostasis_agent) (rnd1 rnd2 : ℚ × ℚ) (dt : ℚ) :
    ((a.exist rnd1 dt).monitor < (a.exist rnd1 dt).margin →
      a.advance rnd1 rnd2 dt = (a.exist rnd1 dt).consume dt ∧
      (a.advance rnd1 rnd2 dt).food_store = (a.exist rnd1 dt).food_store - 1 ∧
      (a.advance rnd1 rnd2 dt).temperature = (a.exist rnd1 dt).temperature + 1/10 ∧
      (a.advance rnd1 rnd2 dt).vx = (a.exist rnd1 dt).vx ∧
      (a.advance rnd1 rnd2 dt).vy = (a.exist rnd1 dt).vy ∧
      (a.advance rnd1 rnd2 dt).rx = (a.exist rnd1 dt).rx ∧
      (a.advance rnd1 rnd2 dt).ry = (a.exist rnd1 dt).ry) ∧
    ((a.exist rnd1 dt).margin < (a.exist rnd1 dt).monitor →
      a.advance rnd1 rnd2 dt = (a.exist rnd1 dt).move rnd2 (1/2) dt ∧
      (a.advance rnd1 rnd2 dt).food_store = (a.exist rnd1 dt).food_store ∧
      (a.advance rnd1 rnd2 dt).temperature = (a.exist rnd1 dt).temperature) ∧
    ((a.exist rnd1 dt).monitor = (a.exist rnd1 dt).margin →
      a.advance rnd1 rnd2 dt = a.exist rnd1 dt) := by
  refine ⟨?_, ?_, ?_⟩ <;> intro h
  · rw [homeostasis_agent.advance, if_pos h]
    simp [homeostasis_agent.consume]
  · rw [homeostasis_agent.advance, if_neg (by push_neg; exact le_of_lt h), if_pos h]
    simp [homeostasis_agent.move]
  · rw [homeostasis_agent.advance, if_neg (by rw [h]; exact lt_irrefl _),
      if_neg (by rw [h]; exact lt_irrefl _)]

/-- Witness for claim C6: the nominal agent sits below the margin after
exist (monitor 0 against margin 2), so its tick consumes: food store drops
by exactly 1 and temperature rises by exactly 1/10. -/
theorem claim_C6_witness :
    (aW.advance (0, 0) (0, 0) (1/100)).food_store =
        (aW.exist (0, 0) (1/100)).food_store - 1 ∧
      (aW.advance (0, 0) (0, 0) (1/100)).temperature =
        (aW.exist (0, 0) (1/100)).temperature + 1/10 :=
  ⟨((claim_C6 aW (0, 0) (0, 0) (1/100)).1 (by norm_num [homeostasis_agent.exist,
      homeostasis_agent.move, homeostasis_agent.monitor, aW])).2.1,
   ((claim_C6 aW (0, 0) (0, 0) (1/100)).1 (by norm_num [homeostasis_agent.exist,
      homeostasis_agent.move, homeostasis_agent.monitor, aW])).2.2.1⟩

/-- A particle whose radius 3/5 exceeds half the domain width, crossing the
left wall. -/
def pC5 : Particle := mkParticle (3/10) (1/2) (-1) 0 (3/5)

/-- Counterexample for claim C5: for this particle the leading edge crosses
the left wall, yet after the call the position is not clamped to radius and
the velocity is not a single inverted 0.95-scaled copy — the second wall
check re-fires on the already-clamped state, clamping to 1 - radius and
scaling the velocity a second time. -/
theorem claim_C5_cex :
    pC5.rx - pC5.radius < 0 ∧
      (handle_boundary_collisions pC5).rx ≠ pC5.radius ∧
      (handle_boundary_collisions pC5).vx ≠ -(95/100) * pC5.vx := by
  refine ⟨?_, ?_, ?_⟩ <;>
    norm_num [handle_boundary_collisions, pC5, mkParticle]

/-- A fixed admissible draw used by the construction counterexamples. -/
def d0 : Draw := { ux := 1/2, uy := 1/2, vr := 1/10 }

/-- Counterexample for claim C8: a configured radius of 0 (hence radius ≤ 0)
passes construction without any error — init_particles places the particle
and returns normally — so an invalid radius is not reported as a
construction-time error. -/
theorem claim_C8_cex :
    initParticles 1 (RadiusArg.scalar 0) [d0] = .ok (some [candidate 0 d0]) ∧
      (candidate 0 d0).radius ≤ 0 := by
  refine ⟨?_, ?_⟩
  · norm_num [initParticles, radiiOf, placeAll, placeLoop, place_particle, candidate,
      mkParticle, d0, overlapsB, sqDist]
  · norm_num [candidate, mkParticle]

/-- Counterexample for claim C10: with radius 3/5 the accepted candidate's
disc does not lie inside the unit square — place_particle appends it and
reports success even though the disc protrudes past the left wall. -/
theorem claim_C10_cex :
    place_particle (3/5) d0 [] = some [candidate (3/5) d0] ∧
      (candidate (3/5) d0).rx - (candidate (3/5) d0).radius < 0 := by
  refine ⟨?_, ?_⟩
  · norm_num [place_particle]
  · norm_num [candidate, mkParticle, d0]

/-- Claim C5 (amended with the radius bound the counterexample forces): for
a particle whose diameter fits the domain (2*radius ≤ 1), one call checks
each axis independently; on an axis whose leading edge crosses a wall the
position is clamped to radius (left/bottom) or 1 - radius (right/top) and
the velocity component is inverted and scaled by 0.95, and an axis crossing
no wall is untouched. -/
theorem claim_C5 (p : Particle) (h : 2 * p.radius ≤ 1) :
    ((p.rx - p.radius < 0 →
        (handle_boundary_collisions p).rx = p.radius ∧
        (handle_boundary_collisions p).vx = -(95/100) * p.vx) ∧
     (¬ p.rx - p.radius < 0 → p.rx + p.radius > 1 →
        (handle_boundary_collisions p).rx = 1 - p.radius ∧
        (handle_boundary_collisions p).vx = -(95/100) * p.vx) ∧
     (¬ p.rx - p.radius < 0 → ¬ p.rx + p.radius > 1 →
        (handle_boundary_collisions p).rx = p.rx ∧
        (handle_boundary_collisions p).vx = p.vx)) ∧
    ((p.ry - p.radius < 0 →
        (handle_boundary_collisions p).ry = p.radius ∧
        (handle_boundary_collisions p).vy = -(95/100) * p.vy) ∧
     (¬ p.ry - p.radius < 0 → p.ry + p.radius > 1 →
        (handle_boundary_collisions p).ry = 1 - p.radius ∧
        (handle_boundary_collisions p).vy = -(95/100) * p.vy) ∧
     (¬ p.ry - p.radius < 0 → ¬ p.ry + p.radius > 1 →
        (handle_boundary_collisions p).ry = p.ry ∧
        (handle_boundary_collisions p).vy = p.vy)) := by
  simp only [handle_boundary_collisions]
  split_ifs <;>
    refine ⟨⟨?_, ?_, ?_⟩, ⟨?_, ?_, ?_⟩⟩ <;> intros <;> simp_all <;> linarith

/-- The spec's boundary-bounce example particle: radius 1/100 at x = 1/200
with vx = -1. -/
def pW5 : Particle := mkParticle (1/200) (1/2) (-1) 0 (1/100)

/-- Witness for claim C5: the spec's example particle crosses the left wall
and ends the call at x = radius = 1/100 with vx = 19/20 = 0.95. -/
theorem claim_C5_witness :
    pW5.rx - pW5.radius < 0 ∧
      (handle_boundary_collisions pW5).rx = 1/100 ∧
      (handle_boundary_collisions pW5).vx = 19/20 := by
  have h := (claim_C5 pW5 (by norm_num [pW5, mkParticle])).1.1
    (by norm_num [pW5, mkParticle])
  refine ⟨by norm_num [pW5, mkParticle], ?_, ?_⟩
  · rw [h.1]; norm_num [pW5, mkParticle]
  · rw [h.2]; norm_num [pW5, mkParticle]

/-- Claim C10 (amended as the counterexample forces): for every radius,
place_particle is atomic — an overlapping candidate yields failure with the
collection untouched, otherwise exactly the one candidate is appended — and
the radius proviso 2*rad ≤ 1 is needed only for the appended disc to lie
inside the unit square. -/
theorem claim_C10 (rad : ℚ) (d : Draw) (ps : List Particle) (hd : d.adm) :
    ((ps.any fun p2 => overlapsB p2 (candidate rad d)) = true →
        place_particle rad d ps = none) ∧
    ((ps.any fun p2 => overlapsB p2 (candidate rad d)) = false →
        place_particle rad d ps = some (ps ++ [candidate rad d]) ∧
        (2 * rad ≤ 1 →
          0 ≤ (candidate rad d).rx - (candidate rad d).radius ∧
          (candidate rad d).rx + (candidate rad d).radius ≤ 1 ∧
          0 ≤ (candidate rad d).ry - (candidate rad d).radius ∧
          (candidate rad d).ry + (candidate rad d).radius ≤ 1)) := by
  obtain ⟨hux0, hux1, huy0, huy1⟩ := hd
  constructor
  · intro ha; simp [place_particle, ha]
  · intro ha
    refine ⟨by simp [place_particle, ha], ?_⟩
    intro hr
    have hfac : (0:ℚ) ≤ 1 - 2 * rad := by linarith
    refine ⟨?_, ?_, ?_, ?_⟩ <;>
      simp only [candidate, mkParticle] <;>
      nlinarith [mul_nonneg hfac hux0, mul_nonneg hfac huy0,
        mul_le_mul_of_nonneg_left hux1 hfac, mul_le_mul_of_nonneg_left huy1 hfac]

/-- Witness for claim C10: with radius 1/100 and an empty collection the
draw d0 is accepted, the collection becomes the single placed candidate and
its disc lies inside the unit square. -/
theorem claim_C10_witness :
    place_particle (1/100) d0 [] = some ([] ++ [candidate (1/100) d0]) ∧
      0 ≤ (candidate (1/100) d0).rx - (candidate (1/100) d0).radius ∧
      (candidate (1/100) d0).rx + (candidate (1/100) d0).radius ≤ 1 ∧
      0 ≤ (candidate (1/100) d0).ry - (candidate (1/100) d0).radius ∧
      (candidate (1/100) d0).ry + (candidate (1/100) d0).radius ≤ 1 :=
  ⟨((claim_C10 (1/100) d0 [] (by norm_num [Draw.adm, d0])).2 rfl).1,
   ((claim_C10 (1/100) d0 [] (by norm_num [Draw.adm, d0])).2 rfl).2 (by norm_num)⟩

/-- Any two candidates of radius 3/10 drawn inside the unit square overlap:
their centers lie in [3/10, 7/10] on each axis, so the squared center
distance is at most 8/25, below (3/5)^2 = 9/25. -/
lemma c7_overlap (d e : Draw) (hd : d.adm) (he : e.adm) :
    overlapsB (candidate (3/10) d) (candidate (3/10) e) = true := by
  obtain ⟨a0, a1, b0, b1⟩ := hd
  obtain ⟨c0, c1, f0, f1⟩ := he
  simp only [overlapsB, candidate, mkParticle, sqDist, decide_eq_true_eq]
  constructor
  · norm_num
  · have h1 : (d.ux - e.ux)^2 ≤ 1 := by nlinarith
    have h2 : (d.uy - e.uy)^2 ≤ 1 := by nlinarith
    nlinarith [h1, h2]

/-- Once one radius-3/10 particle is placed, the retry loop for the second
rejects every admissible draw, exhausting any finite draw supply. -/
lemma c7_loop (d : Draw) (hd : d.adm) :
    ∀ draws : List Draw, (∀ e ∈ draws, e.adm) →
      placeLoop (3/10) [candidate (3/10) d] draws = none := by
  intro draws
  induction draws with
  | nil => intro _; rfl
  | cons e rest ih =>
    intro hall
    have he : e.adm := hall e (List.mem_cons_self e rest)
    have hov := c7_overlap d e hd he
    simp only [placeLoop, place_particle, List.any_cons, List.any_nil, hov,
      Bool.true_or, Bool.or_false, if_true]
    exact ih fun x hx => hall x (List.mem_cons_of_mem e hx)

/-- Claim C7: retries are supposed to be capped with a configuration error
on infeasible configurations.  The code has no cap: for two particles of
radius 3/10 in the unit square, every admissible draw for the second
particle is rejected, so init_particles consumes any finite supply of draws
and never signals a configuration error — the source's while-loop spins
forever. -/
theorem claim_C7 (draws : List Draw) (h : ∀ d ∈ draws, d.adm) :
    initParticles 2 (RadiusArg.scalar (3/10)) draws = .ok none := by
  cases draws with
  | nil => rfl
  | cons d rest =>
    have hd : d.adm := h d (List.mem_cons_self d rest)
    have hrest : ∀ e ∈ rest, e.adm := fun e he => h e (List.mem_cons_of_mem d he)
    simp [initParticles, radiiOf, placeAll, placeLoop, place_particle,
      c7_loop d hd rest hrest]

/-- Witness for claim C7 at the empty draw supply. -/
theorem claim_C7_witness :
    initParticles 2 (RadiusArg.scalar (3/10)) [] = .ok none :=
  claim_C7 [] (by simp)

/-- Claim C8 (amended as the counterexample forces): a per-particle radius
sequence whose length differs from n fails with a construction-time error
before any placement, while a radius ≤ 0 is accepted without error. -/
theorem claim_C8 (n : ℕ) (l : List ℚ) (draws : List Draw) (h : n ≠ l.length) :
    initParticles n (RadiusArg.seq l) draws = .error ConfigErr.lengthMismatch := by
  simp [initParticles, radiiOf, h]

/-- Witness for claim C8: two particles requested, one radius supplied. -/
theorem claim_C8_witness :
    initParticles 2 (RadiusArg.seq [1/100]) [] = .error ConfigErr.lengthMismatch :=
  claim_C8 2 [1/100] [] (by norm_num)

/-- Claim C3: change_velocities conserves total momentum and total kinetic
energy exactly over exact (rational) arithmetic, for any pair with distinct
centers and positive masses; both outputs are computed from the
pre-collision velocities (the definition reads only the incoming fields and
assigns both results at the end, as the source does). -/
theorem claim_C3 (p1 p2 : Particle) (hr : p1.rx ≠ p2.rx ∨ p1.ry ≠ p2.ry)
    (h1 : 0 < p1.mass) (h2 : 0 < p2.mass) :
    p1.mass * (change_velocities p1 p2).1.vx + p2.mass * (change_velocities p1 p2).2.vx
      = p1.mass * p1.vx + p2.mass * p2.vx ∧
    p1.mass * (change_velocities p1 p2).1.vy + p2.mass * (change_velocities p1 p2).2.vy
      = p1.mass * p1.vy + p2.mass * p2.vy ∧
    (1/2) * p1.mass * ((change_velocities p1 p2).1.vx^2 + (change_velocities p1 p2).1.vy^2)
      + (1/2) * p2.mass * ((change_velocities p1 p2).2.vx^2 + (change_velocities p1 p2).2.vy^2)
      = (1/2) * p1.mass * (p1.vx^2 + p1.vy^2) + (1/2) * p2.mass * (p2.vx^2 + p2.vy^2) := by
  have hd : (p1.rx - p2.rx)^2 + (p1.ry - p2.ry)^2 ≠ 0 := by
    rcases hr with h | h
    · have hx : p1.rx - p2.rx ≠ 0 := sub_ne_zero.mpr h
      have hx2 : 0 < (p1.rx - p2.rx)^2 :=
        lt_of_le_of_ne (sq_nonneg _) (Ne.symm (pow_ne_zero 2 hx))
      nlinarith [sq_nonneg (p1.ry - p2.ry)]
    · have hy : p1.ry - p2.ry ≠ 0 := sub_ne_zero.mpr h
      have hy2 : 0 < (p1.ry - p2.ry)^2 :=
        lt_of_le_of_ne (sq_nonneg _) (Ne.symm (pow_ne_zero 2 hy))
      nlinarith [sq_nonneg (p1.rx - p2.rx)]
  have hM : p1.mass + p2.mass ≠ 0 := ne_of_gt (by linarith)
  refine ⟨?_, ?_, ?_⟩ <;>
  · simp only [change_velocities]
    field_simp
    ring

/-- A head-on pair of unit-radius particles for the conservation witness. -/
def cvA : Particle := mkParticle 0 0 1 0 1

def cvB : Particle := mkParticle 1 0 0 0 1

/-- Witness for claim C3: momentum and kinetic energy are conserved at the
concrete head-on collision of cvA and cvB. -/
theorem claim_C3_witness :
    cvA.mass * (change_velocities cvA cvB).1.vx + cvB.mass * (change_velocities cvA cvB).2.vx
      = cvA.mass * cvA.vx + cvB.mass * cvB.vx ∧
    cvA.mass * (change_velocities cvA cvB).1.vy + cvB.mass * (change_velocities cvA cvB).2.vy
      = cvA.mass * cvA.vy + cvB.mass * cvB.vy ∧
    (1/2) * cvA.mass * ((change_velocities cvA cvB).1.vx^2 + (change_velocities cvA cvB).1.vy^2)
      + (1/2) * cvB.mass * ((change_velocities cvA cvB).2.vx^2 + (change_velocities cvA cvB).2.vy^2)
      = (1/2) * cvA.mass * (cvA.vx^2 + cvA.vy^2) + (1/2) * cvB.mass * (cvB.vx^2 + cvB.vy^2) :=
  claim_C3 cvA cvB (Or.inl (by norm_num [cvA, cvB, mkParticle]))
    (by norm_num [cvA, mkParticle]) (by norm_num [cvB, mkParticle])

/-- The per-particle fields a collision pass may not change: position,
radius, mass and the deletion flag. -/
def frameOf (p : Particle) : ℚ × ℚ × ℚ × ℚ × Bool :=
  (p.rx, p.ry, p.radius, p.mass, p.delete)

/-- change_velocities leaves every non-velocity field of its first particle
in place. -/
lemma frameOf_cv1 (p1 p2 : Particle) :
    frameOf (change_velocities p1 p2).1 = frameOf p1 := rfl

/-- change_velocities leaves every non-velocity field of its second
particle in place. -/
lemma frameOf_cv2 (p1 p2 : Particle) :
    frameOf (change_velocities p1 p2).2 = frameOf p2 := rfl

lemma pget_set_of_ne (l : List Particle) (i m : ℕ) (a : Particle) (h : i ≠ m) :
    pget (l.set i a) m = pget l m := by
  simp [pget, List.getD_eq_getElem?_getD, List.getElem?_set_ne h]

lemma pget_set_self (l : List Particle) (i : ℕ) (a : Particle) (h : i < l.length) :
    pget (l.set i a) i = a := by
  simp [pget, List.getD_eq_getElem?_getD, List.getElem?_set_self h]

/-- Writing a frame-equal particle at one slot preserves every slot's
frame. -/
lemma frameOf_pget_set (l : List Particle) (i m : ℕ) (a : Particle)
    (ha : frameOf a = frameOf (pget l i)) :
    frameOf (pget (l.set i a) m) = frameOf (pget l m) := by
  by_cases him : i = m
  · subst him
    by_cases hlen : i < l.length
    · rw [pget_set_self l i a hlen, ha]
    · rw [List.set_eq_of_length_le (le_of_not_lt hlen)]
  · rw [pget_set_of_ne l i m a him]

lemma length_collStep (l : List Particle) (ij : ℕ × ℕ) :
    (collStep l ij).length = l.length := by
  unfold collStep
  split <;> simp

/-- One collision step preserves every slot's frame fields. -/
lemma frameOf_pget_collStep (l : List Particle) (ij : ℕ × ℕ) (m : ℕ) :
    frameOf (pget (collStep l ij) m) = frameOf (pget l m) := by
  unfold collStep
  split
  · rw [frameOf_pget_set]
    · rw [frameOf_pget_set]
      exact frameOf_cv1 _ _
    · by_cases hij : ij.1 = ij.2
      · rw [frameOf_pget_set]
        · rw [hij, frameOf_cv2]
        · rw [hij]
          exact frameOf_cv1 _ _
      · rw [pget_set_of_ne l ij.1 ij.2 _ hij]
        exact frameOf_cv2 _ _
  · rfl

lemma length_foldl_collStep (pl : List (ℕ × ℕ)) :
    ∀ l : List Particle, (pl.foldl collStep l).length = l.length := by
  induction pl with
  | nil => intro l; rfl
  | cons ij rest ih =>
    intro l
    rw [List.foldl_cons, ih, length_collStep]

lemma frameOf_pget_foldl (pl : List (ℕ × ℕ)) :
    ∀ (l : List Particle) (m : ℕ),
      frameOf (pget (pl.foldl collStep l) m) = frameOf (pget l m) := by
  induction pl with
  | nil => intro l m; rfl
  | cons ij rest ih =>
    intro l m
    rw [List.foldl_cons, ih, frameOf_pget_collStep]

/-- The overlap test reads only frame fields (positions and radii). -/
lemma overlapsB_congr_frame (p p' q q' : Particle)
    (hp : frameOf p = frameOf p') (hq : frameOf q = frameOf q') :
    overlapsB p q = overlapsB p' q' := by
  unfold frameOf at hp hq
  simp only [Prod.mk.injEq] at hp hq
  obtain ⟨hp1, hp2, hp3, hp4, hp5⟩ := hp
  obtain ⟨hq1, hq2, hq3, hq4, hq5⟩ := hq
  unfold overlapsB sqDist
  rw [hp1, hp2, hp3, hq1, hq2, hq3]

lemma overlapsB_symm (p q : Particle) : overlapsB p q = overlapsB q p := by
  unfold overlapsB
  rw [decide_eq_decide]
  have hs : sqDist p q = sqDist q p := by unfold sqDist; ring
  rw [hs, add_comm p.radius q.radius]

/-- A slot touched by no overlapping pair of the processed pair list is left
exactly as it started, even while other slots' velocities change. -/
lemma pget_foldl_untouched (l0 : List Particle) (k : ℕ) :
    ∀ (pl : List (ℕ × ℕ)) (l : List Particle),
      (∀ m, frameOf (pget l m) = frameOf (pget l0 m)) →
      pget l k = pget l0 k →
      (∀ ij ∈ pl, (ij.1 = k ∨ ij.2 = k) →
        overlapsB (pget l0 ij.1) (pget l0 ij.2) = false) →
      pget (pl.foldl collStep l) k = pget l0 k := by
  intro pl
  induction pl with
  | nil =>
    intro l _ hk _
    simpa using hk
  | cons ij rest ih =>
    intro l hframe hk hov
    rw [List.foldl_cons]
    apply ih
    · intro m
      rw [frameOf_pget_collStep]
      exact hframe m
    · by_cases htouch : ij.1 = k ∨ ij.2 = k
      · have hov0 := hov ij (List.mem_cons_self ij rest) htouch
        have hovl : overlapsB (pget l ij.1) (pget l ij.2) = false := by
          rw [overlapsB_congr_frame _ (pget l0 ij.1) _ (pget l0 ij.2)
            (hframe ij.1) (hframe ij.2)]
          exact hov0
        unfold collStep
        rw [hovl]
        simpa using hk
      · push_neg at htouch
        unfold collStep
        split
        · rw [pget_set_of_ne _ _ _ _ htouch.2, pget_set_of_ne _ _ _ _ htouch.1]
          exact hk
        · exact hk
    · intro ij' h' ht
      exact hov ij' (List.mem_cons_of_mem ij h') ht

lemma mem_allPairs (n : ℕ) (ij : ℕ × ℕ) (h : ij ∈ allPairs n) :
    ij.1 < ij.2 ∧ ij.2 < n := by
  obtain ⟨i, j⟩ := ij
  unfold allPairs at h
  simp only [List.mem_flatMap, List.mem_map, List.mem_filter, List.mem_range,
    decide_eq_true_eq, Prod.mk.injEq] at h
  obtain ⟨a, _, b, ⟨hbn, hab⟩, hai, hbj⟩ := h
  subst hai
  subst hbj
  exact ⟨hab, hbn⟩

/-- Claim C9: a full collision pass preserves the collection's length and
every particle's position, radius, mass and deletion flag, and any particle
belonging to no overlapping pair is left entirely unchanged — only the
velocities of overlapping-pair members can move. -/
theorem claim_C9 (l : List Particle) :
    (handleCollisions l.length l).length = l.length ∧
    (∀ m : ℕ, frameOf (pget (handleCollisions l.length l) m) = frameOf (pget l m)) ∧
    (∀ k : ℕ,
      (∀ j, j < l.length → j ≠ k → overlapsB (pget l k) (pget l j) = false) →
      pget (handleCollisions l.length l) k = pget l k) := by
  refine ⟨length_foldl_collStep _ _, fun m => frameOf_pget_foldl _ _ _, ?_⟩
  intro k hk
  apply pget_foldl_untouched l k (allPairs l.length) l (fun m => rfl) rfl
  intro ij hij htouch
  obtain ⟨hlt, hn⟩ := mem_allPairs _ _ hij
  rcases htouch with h | h
  · subst h
    exact hk ij.2 hn (by omega)
  · subst h
    rw [overlapsB_symm]
    exact hk ij.1 (by omega) (by omega)

/-- Two far-apart particles used to witness the frame property. -/
def pF1 : Particle := mkParticle (1/10) (1/2) 1 0 (1/100)

def pF2 : Particle := mkParticle (9/10) (1/2) (-1) 0 (1/100)

/-- Witness for claim C9: in a two-particle collection with no overlapping
pair, slot 0 is untouched by the collision pass. -/
theorem claim_C9_witness :
    pget (handleCollisions 2 [pF1, pF2]) 0 = pget [pF1, pF2] 0 := by
  have h := (claim_C9 [pF1, pF2]).2.2 0
  apply h
  intro j hj hne
  have hj2 : j < 2 := by simpa using hj
  interval_cases j
  · exact absurd rfl hne
  · norm_num [pget, List.getD, overlapsB, sqDist, pF1, pF2, mkParticle]
